import Mathlib

/- Batteries marks the rational operations irreducible, which blocks the
evaluation of the embedding on concrete inputs; restore the default
reducibility so that concrete states compute by decide. -/
set_option allowUnsafeReducibility true
attribute [semireducible] Rat.add Rat.sub Rat.mul Rat.div Rat.inv

/-!
Verification of the rate limiter in python/helpers/rate_limiter.py.

The limiter is embedded shallowly: time.time() readings become explicit
rational parameters, the mutable object becomes a state record threaded
through each operation, and floats become rationals.  Every definition
mirrors the corresponding Python method line by line; the lock is not
modelled because every claim is about the sequential semantics of a
single critical section.
-/

namespace RateLimit

/-- Token-bucket fields of a RateLimiter, present only when the source sets
use_token_bucket (max_tokens is not None). -/
structure TokenState where
  max_tokens : ℚ
  tokens : ℚ
  token_refill_rate : ℚ
  max_token_capacity : ℚ
  last_refill_time : ℚ
deriving DecidableEq

/-- State of a RateLimiter instance.  requests is the deque of admission
timestamps, oldest first; bucket is none exactly when use_token_bucket is
false. -/
structure RateLimiter where
  max_requests : ℕ
  per_seconds : ℚ
  tokens_per_request : ℚ
  requests : List ℚ
  bucket : Option TokenState
deriving DecidableEq

/-- Python truthiness fallback for optional numbers: models the expression
max_token_capacity or max_tokens in the constructor, where both None and 0
are falsy and select the fallback. -/
def pyOrElse (o : Option ℚ) (d : ℚ) : ℚ :=
  match o with
  | none => d
  | some x => if x = 0 then d else x

namespace RateLimiter

/-- RateLimiter.__init__.  now is the time.time() reading taken for
last_refill_time when the token bucket is configured. -/
def init (max_requests : ℕ) (per_seconds : ℚ) (max_tokens : Option ℚ)
    (tokens_per_request : ℚ) (token_refill_rate : ℚ)
    (max_token_capacity : Option ℚ) (now : ℚ) : RateLimiter :=
  { max_requests := max_requests
    per_seconds := per_seconds
    tokens_per_request := tokens_per_request
    requests := []
    bucket := max_tokens.map fun m =>
      { max_tokens := m
        tokens := m
        token_refill_rate := token_refill_rate
        max_token_capacity := pyOrElse max_token_capacity m
        last_refill_time := now } }

/-- RateLimiter._refill_tokens on the bucket fields: lazy linear refill,
clamped at max_token_capacity, only when time has advanced. -/
def refill_tokens (b : TokenState) (now : ℚ) : TokenState :=
  let time_elapsed := now - b.last_refill_time
  if 0 < time_elapsed then
    { b with
      tokens := min b.max_token_capacity (b.tokens + time_elapsed * b.token_refill_rate)
      last_refill_time := now }
  else b

/-- RateLimiter._consume_tokens (which calls _has_tokens, which calls
_refill_tokens): with no bucket it trivially succeeds; otherwise it refills,
then subtracts only when enough tokens are available.  The refill side
effect persists even when consumption fails, exactly as in the source. -/
def consume_tokens (bucket : Option TokenState) (needed : ℚ) (now : ℚ) :
    Bool × Option TokenState :=
  match bucket with
  | none => (true, none)
  | some b =>
    let b1 := refill_tokens b now
    if needed ≤ b1.tokens then (true, some { b1 with tokens := b1.tokens - needed })
    else (false, some b1)

/-- RateLimiter._cleanup_old_requests: pop from the front while the oldest
timestamp is strictly older than the window. -/
def cleanup_old_requests (per_seconds : ℚ) (requests : List ℚ) (now : ℚ) : List ℚ :=
  match requests with
  | [] => []
  | t :: rest =>
    if per_seconds < now - t then cleanup_old_requests per_seconds rest now
    else t :: rest

/-- RateLimiter._is_request_allowed: prune, check the window bound, then
(short-circuit) the token bucket, and record the admission timestamp only
when both checks pass. -/
def is_request_allowed (s : RateLimiter) (now : ℚ) : Bool × RateLimiter :=
  let reqs := cleanup_old_requests s.per_seconds s.requests now
  if s.max_requests ≤ reqs.length then
    (false, { s with requests := reqs })
  else
    let r := consume_tokens s.bucket s.tokens_per_request now
    if r.1 then (true, { s with requests := reqs ++ [now], bucket := r.2 })
    else (false, { s with requests := reqs, bucket := r.2 })

/-- RateLimiter._get_wait_time: accumulate a wait bound from the window
(only when it is full) and from the token deficit (after a refill pass),
then clamp at zero. -/
def get_wait_time (s : RateLimiter) (now : ℚ) : ℚ × RateLimiter :=
  let reqs := cleanup_old_requests s.per_seconds s.requests now
  let w1 : ℚ := 0
  let w2 :=
    match reqs with
    | [] => w1
    | t :: rest =>
      if s.max_requests ≤ (t :: rest).length then
        max w1 (s.per_seconds - (now - t))
      else w1
  match s.bucket with
  | none => (max 0 w2, { s with requests := reqs })
  | some b =>
    let b1 := refill_tokens b now
    let w3 :=
      if b1.tokens < s.tokens_per_request then
        max w2 ((s.tokens_per_request - b1.tokens) / b1.token_refill_rate)
      else w2
    (max 0 w3, { s with requests := reqs, bucket := some b1 })

/-- RateLimiter.release: undo the most recent admission timestamp, if any. -/
def release (s : RateLimiter) : RateLimiter :=
  { s with requests := s.requests.dropLast }

/-- Result record of RateLimiter.get_stats; token fields are present only
in token-bucket mode. -/
structure Stats where
  max_requests : ℕ
  requests_in_window : ℕ
  window_seconds : ℚ
  time_until_next_window : ℚ
  tokens : Option ℚ
  max_tokens : Option ℚ
  token_refill_rate : Option ℚ
  tokens_per_request : Option ℚ
deriving DecidableEq

/-- RateLimiter.get_stats: prune, report the window numbers, and in
token-bucket mode refill and report the token numbers. -/
def get_stats (s : RateLimiter) (now : ℚ) : Stats × RateLimiter :=
  let reqs := cleanup_old_requests s.per_seconds s.requests now
  let tun :=
    max 0 (match reqs with
           | [] => (0 : ℚ)
           | t :: _ => t + s.per_seconds - now)
  match s.bucket with
  | none =>
    ({ max_requests := s.max_requests
       requests_in_window := reqs.length
       window_seconds := s.per_seconds
       time_until_next_window := tun
       tokens := none, max_tokens := none
       token_refill_rate := none, tokens_per_request := none },
     { s with requests := reqs })
  | some b =>
    let b1 := refill_tokens b now
    ({ max_requests := s.max_requests
       requests_in_window := reqs.length
       window_seconds := s.per_seconds
       time_until_next_window := tun
       tokens := some b1.tokens
       max_tokens := some b1.max_token_capacity
       token_refill_rate := some b1.token_refill_rate
       tokens_per_request := some s.tokens_per_request },
     { s with requests := reqs, bucket := some b1 })

/-- Loop body of RateLimiter.acquire in the blocking, finite-timeout branch:
while time.time() < end_time, probe and otherwise sleep and retry.  Each
iteration consumes one pair of clock readings: the reading for the loop
condition and the reading taken inside _is_request_allowed.  An exhausted
reading list ends the loop with failure, matching the deadline expiry path. -/
def acquire_loop (end_time : ℚ) : RateLimiter → List (ℚ × ℚ) → Bool × RateLimiter
  | s, [] => (false, s)
  | s, c :: rest =>
    if c.1 < end_time then
      match is_request_allowed s c.2 with
      | (true, s1) => (true, s1)
      | (false, s1) => acquire_loop end_time s1 rest
    else (false, s)

/-- RateLimiter.acquire for a non-None timeout: with block=True it runs the
deadline loop with end_time = now + timeout; with block=False it is exactly
one _is_request_allowed probe.  The timeout=None branch (unbounded blocking
wait) is not embedded; no claim refers to it. -/
def acquire (s : RateLimiter) (block : Bool) (timeout : ℚ) (now : ℚ)
    (clock : List (ℚ × ℚ)) : Bool × RateLimiter :=
  if block then acquire_loop (now + timeout) s clock
  else is_request_allowed s now

end RateLimiter

/-- One externally observable operation on a limiter, tagged with the
time.time() reading it observes. -/
inductive Op where
  | probe (now : ℚ)
  | wait_time (now : ℚ)
  | stats (now : ℚ)
  | rel
deriving DecidableEq

/-- State transition of a single operation. -/
def step (s : RateLimiter) : Op → RateLimiter
  | .probe now => (s.is_request_allowed now).2
  | .wait_time now => (s.get_wait_time now).2
  | .stats now => (s.get_stats now).2
  | .rel => s.release

/-- Run a sequence of operations from a state. -/
def run (s : RateLimiter) (ops : List Op) : RateLimiter :=
  ops.foldl step s

/-- Run a sequence of non-blocking probes at the given times, counting how
many return True. -/
def probe_trace (s : RateLimiter) : List ℚ → ℕ × RateLimiter
  | [] => (0, s)
  | t :: ts =>
    let r := s.is_request_allowed t
    let rest := probe_trace r.2 ts
    ((if r.1 then 1 else 0) + rest.1, rest.2)

/-- Number of timestamps in a list that are at least a. -/
def countGe (a : ℚ) (l : List ℚ) : ℕ :=
  l.countP fun t => decide (a ≤ t)

/-- The token invariant claimed by the spec data model: in token-bucket mode
the level lies between 0 and the capacity. -/
def tok_inv (s : RateLimiter) : Bool :=
  match s.bucket with
  | none => true
  | some b => decide (0 ≤ b.tokens) && decide (b.tokens ≤ b.max_token_capacity)

/-- Bucket-level form of the token invariant. -/
def bucket_inv (o : Option TokenState) : Prop :=
  ∀ b ∈ o, 0 ≤ b.tokens ∧ b.tokens ≤ b.max_token_capacity

/-- Side condition from the spec data model: the refill rate is
non-negative. -/
def bucket_rates (o : Option TokenState) : Prop :=
  ∀ b ∈ o, 0 ≤ b.token_refill_rate

/-- The window occupancy bound: the admissions sequence never holds more
than max_requests entries. -/
def len_inv (s : RateLimiter) : Prop :=
  s.requests.length ≤ s.max_requests

/-- Written from the claim wording for the wait-time estimate: the window
component is windowSeconds - (now - oldestTimestamp) when the pruned window
is full, and 0 otherwise. -/
def window_component (s : RateLimiter) (now : ℚ) : ℚ :=
  match RateLimiter.cleanup_old_requests s.per_seconds s.requests now with
  | [] => 0
  | t :: rest =>
    if s.max_requests ≤ (t :: rest).length then s.per_seconds - (now - t) else 0

/-- Written from the claim wording for the wait-time estimate: the token
component is (tokensPerRequest - tokens) / refillRatePerSecond when the
refilled level is insufficient, and 0 otherwise. -/
def token_component (s : RateLimiter) (now : ℚ) : ℚ :=
  match s.bucket with
  | none => 0
  | some b =>
    let b1 := RateLimiter.refill_tokens b now
    if b1.tokens < s.tokens_per_request then
      (s.tokens_per_request - b1.tokens) / b1.token_refill_rate
    else 0

/-- What the stats field actually reports: the seconds until the oldest
pruned window entry expires (0 for an empty window), clamped at zero. -/
def seconds_until_oldest_expires (s : RateLimiter) (now : ℚ) : ℚ :=
  match RateLimiter.cleanup_old_requests s.per_seconds s.requests now with
  | [] => 0
  | t :: _ => max 0 (t + s.per_seconds - now)

end RateLimit

namespace RateLimit

open RateLimiter

section Helpers

variable (s : RateLimiter) (now : ℚ)

theorem cleanup_length_le (per now : ℚ) (l : List ℚ) :
    (cleanup_old_requests per l now).length ≤ l.length := by
  induction l with
  | nil => simp [cleanup_old_requests]
  | cons t rest ih =>
    simp only [cleanup_old_requests]
    split_ifs
    · exact le_trans ih (Nat.le_succ _)
    · simp

theorem consume_tokens_failed (bucket : Option TokenState) (needed now : ℚ)
    (h : (consume_tokens bucket needed now).1 = false) :
    (consume_tokens bucket needed now).2
      = bucket.map (fun b => refill_tokens b now) := by
  cases bucket with
  | none => simp [consume_tokens] at h
  | some b =>
    simp only [consume_tokens, Option.map] at h ⊢
    split_ifs at h ⊢ with hc
    · rfl

theorem probe_eq :
    s.is_request_allowed now =
      if s.max_requests ≤ (cleanup_old_requests s.per_seconds s.requests now).length then
        (false, { s with requests := cleanup_old_requests s.per_seconds s.requests now })
      else if (consume_tokens s.bucket s.tokens_per_request now).1 = true then
        (true, { s with
          requests := cleanup_old_requests s.per_seconds s.requests now ++ [now],
          bucket := (consume_tokens s.bucket s.tokens_per_request now).2 })
      else
        (false, { s with
          requests := cleanup_old_requests s.per_seconds s.requests now,
          bucket := (consume_tokens s.bucket s.tokens_per_request now).2 }) := rfl

theorem probe_false_of_full
    (h : s.max_requests ≤ (cleanup_old_requests s.per_seconds s.requests now).length) :
    (s.is_request_allowed now).1 = false := by
  rw [probe_eq, if_pos h]

theorem window_lt_of_probe_true (h : (s.is_request_allowed now).1 = true) :
    (cleanup_old_requests s.per_seconds s.requests now).length < s.max_requests := by
  by_contra hc
  rw [probe_false_of_full s now (Nat.le_of_not_lt hc)] at h
  exact Bool.false_ne_true h

theorem probe_requests_true (h : (s.is_request_allowed now).1 = true) :
    (s.is_request_allowed now).2.requests
      = cleanup_old_requests s.per_seconds s.requests now ++ [now] := by
  rw [probe_eq] at h ⊢
  split_ifs at h ⊢ with h1 h2
  · rfl

theorem probe_requests_false (h : (s.is_request_allowed now).1 = false) :
    (s.is_request_allowed now).2.requests
      = cleanup_old_requests s.per_seconds s.requests now := by
  rw [probe_eq] at h ⊢
  split_ifs at h ⊢ with h1 h2
  · rfl
  · rfl

theorem probe_fields :
    (s.is_request_allowed now).2.per_seconds = s.per_seconds ∧
    (s.is_request_allowed now).2.max_requests = s.max_requests ∧
    (s.is_request_allowed now).2.tokens_per_request = s.tokens_per_request := by
  rw [probe_eq]
  split_ifs <;> exact ⟨rfl, rfl, rfl⟩

end Helpers

/-- C4: the claim states that invalid configurations (non-positive window,
non-positive refill rate, capacity below the per-request cost) raise a
ConfigurationError at construction.  The constructor in the source performs
no validation at all: this evaluation shows it silently accepting a
configuration violating all three conditions, and a later probe returning
an ordinary False rather than raising. -/
theorem C4_construction_accepts_invalid_config :
    init 60 0 (some 10) 20 0 (some 10) 0 =
      { max_requests := 60, per_seconds := 0, tokens_per_request := 20, requests := [],
        bucket := some { max_tokens := 10, tokens := 10, token_refill_rate := 0,
                         max_token_capacity := 10, last_refill_time := 0 } } ∧
    ((init 60 0 (some 10) 20 0 (some 10) 0).is_request_allowed 1).1 = false := by
  decide

/-- C10: passing max_token_capacity = 0 in token-bucket mode is treated
exactly like passing None, because the constructor tests truthiness with
the expression max_token_capacity or max_tokens: the effective capacity
becomes max_tokens. -/
theorem C10_zero_capacity_falls_back_to_max_tokens
    (maxR : ℕ) (per m tpr trr t0 : ℚ) :
    init maxR per (some m) tpr trr (some 0) t0
      = init maxR per (some m) tpr trr none t0 ∧
    (init maxR per (some m) tpr trr (some 0) t0).bucket
      = some { max_tokens := m, tokens := m, token_refill_rate := trr,
               max_token_capacity := m, last_refill_time := t0 } := by
  constructor
  · simp [init, pyOrElse]
  · simp [init, pyOrElse]

/-- C2: in a non-blocking probe the window-capacity check runs strictly
before token consumption (a window rejection leaves the bucket untouched),
and the admission timestamp is appended only after the token check also
passes: when the window check passes but the token check fails, the probe
returns False and the admissions sequence is exactly the pruned sequence,
with no slot consumed. -/
theorem C2_window_check_before_token_consumption (s : RateLimiter) (now : ℚ) :
    (s.max_requests ≤ (cleanup_old_requests s.per_seconds s.requests now).length →
      s.is_request_allowed now
        = (false, { s with requests := cleanup_old_requests s.per_seconds s.requests now })) ∧
    ((cleanup_old_requests s.per_seconds s.requests now).length < s.max_requests →
      (consume_tokens s.bucket s.tokens_per_request now).1 = false →
      s.is_request_allowed now
        = (false, { s with
            requests := cleanup_old_requests s.per_seconds s.requests now,
            bucket := (consume_tokens s.bucket s.tokens_per_request now).2 })) := by
  constructor
  · intro h
    simp only [is_request_allowed]
    rw [if_pos h]
  · intro h1 h2
    simp only [is_request_allowed]
    rw [if_neg (Nat.not_le.mpr h1), if_neg (by simp [h2])]

/-- C2 witness: a concrete limiter whose window has room but whose bucket
cannot cover the per-request cost; the probe fails without recording a
timestamp. -/
theorem C2_window_check_before_token_consumption_witness :
    ((cleanup_old_requests (60:ℚ) [] 0).length < 5 ∧
      (consume_tokens (some { max_tokens := 1, tokens := 0, token_refill_rate := 1,
                              max_token_capacity := 1, last_refill_time := 0 }) 1 0).1 = false) ∧
    ({ max_requests := 5, per_seconds := 60, tokens_per_request := 1, requests := [],
       bucket := some { max_tokens := 1, tokens := 0, token_refill_rate := 1,
                        max_token_capacity := 1, last_refill_time := 0 } :
        RateLimiter }).is_request_allowed 0
      = (false, { max_requests := 5, per_seconds := 60, tokens_per_request := 1, requests := [],
                  bucket := some { max_tokens := 1, tokens := 0, token_refill_rate := 1,
                                   max_token_capacity := 1, last_refill_time := 0 } }) :=
  ⟨⟨by decide, by decide⟩,
    (C2_window_check_before_token_consumption _ 0).2 (by decide) (by decide)⟩

/-- C6 as stated is false: with timeout 0 the blocking branch computes
end_time = now and the while condition time.time() < end_time is already
false at the first reading, so acquire(timeout=0) returns False without
probing, while tryAcquire on the same fresh limiter succeeds. -/
theorem C6_counterexample :
    ((init 1 60 none 1 1 none 0).is_request_allowed 0).1 = true ∧
    ((init 1 60 none 1 1 none 0).acquire true 0 0 [(0, 0)]).1 = false := by
  decide

/-- C6 amended: acquire with block=False is identical to a single
non-blocking probe, but acquire with block=True and timeout=0 returns False
and leaves the state unchanged whenever the clock is monotone (every later
reading is at least the reading that fixed the deadline), so it differs
from tryAcquire exactly when the probe would succeed. -/
theorem C6_acquire_timeout_zero (s : RateLimiter) (now timeout : ℚ)
    (clock : List (ℚ × ℚ)) (h : ∀ c ∈ clock, now ≤ c.1) :
    s.acquire false timeout now clock = s.is_request_allowed now ∧
    s.acquire true 0 now clock = (false, s) := by
  constructor
  · rfl
  · cases clock with
    | nil => rfl
    | cons c rest =>
      have hc : now ≤ c.1 := h c (List.mem_cons_self c rest)
      simp only [acquire, acquire_loop, if_true]
      rw [add_zero, if_neg (not_lt.mpr hc)]

/-- C6 witness: the amended statement applied to a concrete limiter and a
concrete monotone clock. -/
theorem C6_acquire_timeout_zero_witness :
    (∀ c ∈ [((0:ℚ), (0:ℚ))], (0:ℚ) ≤ c.1) ∧
    ((init 1 60 none 1 1 none 0).acquire false 5 0 [(0, 0)]
        = (init 1 60 none 1 1 none 0).is_request_allowed 0 ∧
      (init 1 60 none 1 1 none 0).acquire true 0 0 [(0, 0)]
        = (false, init 1 60 none 1 1 none 0)) :=
  ⟨by decide, C6_acquire_timeout_zero (init 1 60 none 1 1 none 0) 0 5 [(0, 0)] (by decide)⟩

/-- C7 as stated is false: get_stats computes time_until_next_window from
the oldest window entry whenever the pruned window is non-empty, even when
the occupancy is strictly below max_requests; here occupancy is 1 of 2 yet
the field reports 60 seconds instead of 0. -/
theorem C7_counterexample :
    (((((init 2 60 none 1 1 none 0).is_request_allowed 0).2).get_stats 0).1.requests_in_window
        < ((((init 2 60 none 1 1 none 0).is_request_allowed 0).2).get_stats 0).1.max_requests) ∧
    (((((init 2 60 none 1 1 none 0).is_request_allowed 0).2).get_stats 0).1.time_until_next_window
        ≠ 0) := by
  decide

/-- C7 amended: the time_until_next_window field of stats() equals the
seconds until the oldest pruned window entry leaves the window (clamped at
zero, and 0 for an empty window) - the time at which the occupancy next
decreases - not the time until the window next has spare capacity; the
occupancy field is the pruned length. -/
theorem C7_time_until_next_window (s : RateLimiter) (now : ℚ) :
    (s.get_stats now).1.time_until_next_window = seconds_until_oldest_expires s now ∧
    (s.get_stats now).1.requests_in_window
      = (cleanup_old_requests s.per_seconds s.requests now).length := by
  cases hb : s.bucket with
  | none =>
    cases hr : cleanup_old_requests s.per_seconds s.requests now with
    | nil => simp [get_stats, seconds_until_oldest_expires, hb, hr]
    | cons t rest => simp [get_stats, seconds_until_oldest_expires, hb, hr]
  | some b =>
    cases hr : cleanup_old_requests s.per_seconds s.requests now with
    | nil => simp [get_stats, seconds_until_oldest_expires, hb, hr]
    | cons t rest => simp [get_stats, seconds_until_oldest_expires, hb, hr]

/-- C8 as stated is false: a probe rejected by the token check still
mutates state, because the consumption path lazily refills first; here a
failed probe raises the token level from 0 to 1/2 and advances the
last-refill timestamp, and pruning may also drop expired entries. -/
theorem C8_counterexample :
    ((((init 5 60 (some 1) 1 1 none 0).is_request_allowed 0).2).is_request_allowed (1/2)).1
        = false ∧
    ((((init 5 60 (some 1) 1 1 none 0).is_request_allowed 0).2).is_request_allowed (1/2)).2.bucket
        ≠ (((init 5 60 (some 1) 1 1 none 0).is_request_allowed 0).2).bucket := by
  decide

/-- C8 amended: a failed probe never records an admission - its requests
sequence is exactly the pruned input sequence - and its only other effect
is the lazy refill performed while checking the bucket: the resulting
bucket is either untouched (window rejection) or the refilled bucket
(token rejection); tokens are never consumed by a failed probe. -/
theorem C8_failed_probe_effects (s : RateLimiter) (now : ℚ)
    (h : (s.is_request_allowed now).1 = false) :
    (s.is_request_allowed now).2.requests
      = cleanup_old_requests s.per_seconds s.requests now ∧
    ((s.is_request_allowed now).2.bucket = s.bucket ∨
      (s.is_request_allowed now).2.bucket
        = s.bucket.map (fun b => refill_tokens b now)) := by
  refine ⟨probe_requests_false s now h, ?_⟩
  rw [probe_eq] at h ⊢
  split_ifs at h ⊢ with h1 h2
  · exact Or.inl rfl
  · refine Or.inr ?_
    exact consume_tokens_failed s.bucket s.tokens_per_request now (Bool.not_eq_true _ ▸ h2)

/-- C8 witness: the amended statement applied to the limiter of the
counterexample, whose failed probe refills the bucket. -/
theorem C8_failed_probe_effects_witness :
    ((((init 5 60 (some 1) 1 1 none 0).is_request_allowed 0).2).is_request_allowed (1/2)).1
        = false ∧
    (((((init 5 60 (some 1) 1 1 none 0).is_request_allowed 0).2).is_request_allowed (1/2)).2.requests
        = cleanup_old_requests (60:ℚ)
            ((((init 5 60 (some 1) 1 1 none 0).is_request_allowed 0).2).requests) (1/2) ∧
      (((((init 5 60 (some 1) 1 1 none 0).is_request_allowed 0).2).is_request_allowed (1/2)).2.bucket
          = (((init 5 60 (some 1) 1 1 none 0).is_request_allowed 0).2).bucket ∨
        ((((init 5 60 (some 1) 1 1 none 0).is_request_allowed 0).2).is_request_allowed (1/2)).2.bucket
          = (((init 5 60 (some 1) 1 1 none 0).is_request_allowed 0).2).bucket.map
              (fun b => refill_tokens b (1/2)))) :=
  ⟨by decide,
    C8_failed_probe_effects (((init 5 60 (some 1) 1 1 none 0).is_request_allowed 0).2) (1/2)
      (by decide)⟩

/-- C9 as stated is false in token-bucket mode: release restores the window
slot but not the consumed tokens, so after a successful tryAcquire (which
emptied the bucket) followed by release, a tryAcquire at the same instant is
rejected by the token check even though the released call was the only
occupant. -/
theorem C9_counterexample :
    ((init 5 60 (some 1) 1 1 none 0).is_request_allowed 0).1 = true ∧
    (((init 5 60 (some 1) 1 1 none 0).is_request_allowed 0).2).release.requests = [] ∧
    (((((init 5 60 (some 1) 1 1 none 0).is_request_allowed 0).2).release).is_request_allowed 0).1
      = false := by
  decide

/-- C9 amended: release removes the most recently recorded timestamp (and
is a no-op on an empty sequence) and never touches the bucket; and in pure
sliding-window mode (no token bucket), a successful tryAcquire that was the
only occupant, followed by release, lets a tryAcquire at the same instant
succeed.  With a token bucket the final consequent can fail, because
consumed tokens are not restored. -/
theorem C9_release_restores_window_slot (s : RateLimiter) (now : ℚ) :
    s.release.requests = s.requests.dropLast ∧
    s.release.bucket = s.bucket ∧
    (s.requests = [] → s.release = s) ∧
    (s.bucket = none →
      cleanup_old_requests s.per_seconds s.requests now = [] →
      (s.is_request_allowed now).1 = true →
      (((s.is_request_allowed now).2.release).is_request_allowed now).1 = true) := by
  refine ⟨rfl, rfl, fun h => ?_, fun hb hcl hp => ?_⟩
  · obtain ⟨a, b, c, d, e⟩ := s
    simp only at h
    subst h
    rfl
  · have hm : ¬ (s.max_requests ≤ 0) := by
      have hlt := window_lt_of_probe_true s now hp
      rw [hcl] at hlt
      exact not_le.mpr hlt
    have hprobe : s.is_request_allowed now
        = (true, { s with requests := [now], bucket := none }) := by
      rw [probe_eq, hcl, hb]
      simp [consume_tokens, hm]
    rw [hprobe]
    simp [release, is_request_allowed, cleanup_old_requests, consume_tokens, hm]

/-- C9 witness: the pure-window part applied to a concrete limiter with one
admission at time 0 that is immediately released. -/
theorem C9_release_restores_window_slot_witness :
    ((init 2 60 none 1 1 none 0).bucket = none ∧
      cleanup_old_requests ((init 2 60 none 1 1 none 0).per_seconds)
        ((init 2 60 none 1 1 none 0).requests) 0 = [] ∧
      ((init 2 60 none 1 1 none 0).is_request_allowed 0).1 = true) ∧
    ((((init 2 60 none 1 1 none 0).is_request_allowed 0).2.release).is_request_allowed 0).1
      = true :=
  ⟨⟨by decide, by decide, by decide⟩,
    (C9_release_restores_window_slot (init 2 60 none 1 1 none 0) 0).2.2.2
      (by decide) (by decide) (by decide)⟩

theorem max_zero_absorb (w k : ℚ) :
    max 0 (max (max 0 w) k) = max 0 (max w k) := by
  rw [← max_assoc, ← max_assoc, max_self, max_assoc]

/-- C5: the wait-time estimate is the maximum, clamped at zero, of the
window component (windowSeconds - (now - oldest) when the pruned window is
full, else 0) and the token component ((tokensPerRequest - tokens) /
refillRate when the refilled level is insufficient, else 0). -/
theorem C5_wait_time_is_clamped_max (s : RateLimiter) (now : ℚ) :
    (s.get_wait_time now).1
      = max 0 (max (window_component s now) (token_component s now)) := by
  cases hb : s.bucket with
  | none =>
    cases hr : cleanup_old_requests s.per_seconds s.requests now with
    | nil => simp [get_wait_time, window_component, token_component, hb, hr]
    | cons t rest =>
      by_cases hfull : s.max_requests ≤ rest.length + 1
      · simp only [get_wait_time, window_component, token_component, hb, hr,
          List.length_cons, if_pos hfull]
        rw [max_comm (s.per_seconds - (now - t)) 0]
      · simp [get_wait_time, window_component, token_component, hb, hr, hfull]
  | some b =>
    by_cases htok : (refill_tokens b now).tokens < s.tokens_per_request
    · cases hr : cleanup_old_requests s.per_seconds s.requests now with
      | nil => simp [get_wait_time, window_component, token_component, hb, hr, htok]
      | cons t rest =>
        by_cases hfull : s.max_requests ≤ rest.length + 1
        · simp only [get_wait_time, window_component, token_component, hb, hr,
            List.length_cons, if_pos hfull, if_pos htok]
          rw [max_zero_absorb]
        · simp [get_wait_time, window_component, token_component, hb, hr, hfull, htok]
    · cases hr : cleanup_old_requests s.per_seconds s.requests now with
      | nil => simp [get_wait_time, window_component, token_component, hb, hr, htok]
      | cons t rest =>
        by_cases hfull : s.max_requests ≤ rest.length + 1
        · simp only [get_wait_time, window_component, token_component, hb, hr,
            List.length_cons, if_pos hfull, if_neg htok]
          rw [max_comm (s.per_seconds - (now - t)) 0]
        · simp [get_wait_time, window_component, token_component, hb, hr, hfull, htok]

theorem refill_tokens_fields (b : TokenState) (now : ℚ) :
    (refill_tokens b now).max_token_capacity = b.max_token_capacity ∧
    (refill_tokens b now).token_refill_rate = b.token_refill_rate := by
  simp only [refill_tokens]
  split_ifs <;> exact ⟨rfl, rfl⟩

theorem refill_tokens_inv (b : TokenState) (now : ℚ)
    (h0 : 0 ≤ b.tokens) (hc : b.tokens ≤ b.max_token_capacity)
    (hr : 0 ≤ b.token_refill_rate) :
    0 ≤ (refill_tokens b now).tokens ∧
    (refill_tokens b now).tokens ≤ (refill_tokens b now).max_token_capacity := by
  simp only [refill_tokens]
  split_ifs with he
  · constructor
    · exact le_min (h0.trans hc) (add_nonneg h0 (mul_nonneg he.le hr))
    · exact min_le_left _ _
  · exact ⟨h0, hc⟩

theorem consume_tokens_inv (bucket : Option TokenState) (needed now : ℚ)
    (hneed : 0 ≤ needed) (hinv : bucket_inv bucket) (hr : bucket_rates bucket) :
    bucket_inv (consume_tokens bucket needed now).2 := by
  cases bucket with
  | none => intro b1 hb1; simp [consume_tokens] at hb1
  | some b =>
    have hb := hinv b rfl
    have hbr := hr b rfl
    have h1 := refill_tokens_inv b now hb.1 hb.2 hbr
    intro b1 hb1
    simp only [consume_tokens] at hb1
    split_ifs at hb1 with hc
    · simp only [Option.mem_def, Option.some_inj] at hb1
      subst hb1
      constructor
      · simpa using sub_nonneg.mpr hc
      · calc (refill_tokens b now).tokens - needed
            ≤ (refill_tokens b now).tokens := sub_le_self _ hneed
          _ ≤ (refill_tokens b now).max_token_capacity := h1.2
    · simp only [Option.mem_def, Option.some_inj] at hb1
      subst hb1
      exact h1

theorem consume_tokens_rates (bucket : Option TokenState) (needed now : ℚ)
    (hr : bucket_rates bucket) :
    bucket_rates (consume_tokens bucket needed now).2 := by
  cases bucket with
  | none => intro b1 hb1; simp [consume_tokens] at hb1
  | some b =>
    have hbr := hr b rfl
    intro b1 hb1
    simp only [consume_tokens] at hb1
    split_ifs at hb1 with hc <;>
      simp only [Option.mem_def, Option.some_inj] at hb1 <;> subst hb1
    · simpa [(refill_tokens_fields b now).2] using hbr
    · simpa [(refill_tokens_fields b now).2] using hbr

theorem map_refill_inv (o : Option TokenState) (now : ℚ)
    (hinv : bucket_inv o) (hr : bucket_rates o) :
    bucket_inv (o.map (fun b => refill_tokens b now)) := by
  cases o with
  | none => intro b1 hb1; simp at hb1
  | some b =>
    intro b1 hb1
    simp only [Option.map, Option.mem_def, Option.some_inj] at hb1
    subst hb1
    exact refill_tokens_inv b now (hinv b rfl).1 (hinv b rfl).2 (hr b rfl)

theorem map_refill_rates (o : Option TokenState) (now : ℚ) (hr : bucket_rates o) :
    bucket_rates (o.map (fun b => refill_tokens b now)) := by
  cases o with
  | none => intro b1 hb1; simp at hb1
  | some b =>
    intro b1 hb1
    simp only [Option.map, Option.mem_def, Option.some_inj] at hb1
    subst hb1
    simpa [(refill_tokens_fields b now).2] using hr b rfl

theorem get_wait_time_bucket (s : RateLimiter) (now : ℚ) :
    (s.get_wait_time now).2.bucket = s.bucket.map (fun b => refill_tokens b now) := by
  cases hb : s.bucket <;> simp [get_wait_time, hb]

theorem get_stats_bucket (s : RateLimiter) (now : ℚ) :
    (s.get_stats now).2.bucket = s.bucket.map (fun b => refill_tokens b now) := by
  cases hb : s.bucket <;> simp [get_stats, hb]

theorem probe_bucket (s : RateLimiter) (now : ℚ) :
    (s.is_request_allowed now).2.bucket = s.bucket ∨
    (s.is_request_allowed now).2.bucket
      = (consume_tokens s.bucket s.tokens_per_request now).2 := by
  rw [probe_eq]
  split_ifs <;> simp

theorem step_fields (s : RateLimiter) (op : Op) :
    (step s op).per_seconds = s.per_seconds ∧
    (step s op).max_requests = s.max_requests ∧
    (step s op).tokens_per_request = s.tokens_per_request := by
  cases op with
  | probe now => exact probe_fields s now
  | wait_time now => cases hb : s.bucket <;> simp [step, get_wait_time, hb]
  | stats now => cases hb : s.bucket <;> simp [step, get_stats, hb]
  | rel => exact ⟨rfl, rfl, rfl⟩

theorem step_bucket_inv (s : RateLimiter) (op : Op)
    (hinv : bucket_inv s.bucket) (hr : bucket_rates s.bucket)
    (htpr : 0 ≤ s.tokens_per_request) :
    bucket_inv (step s op).bucket ∧ bucket_rates (step s op).bucket := by
  cases op with
  | probe now =>
    rcases probe_bucket s now with h | h <;> rw [step, h]
    · exact ⟨hinv, hr⟩
    · exact ⟨consume_tokens_inv s.bucket s.tokens_per_request now htpr hinv hr,
        consume_tokens_rates s.bucket s.tokens_per_request now hr⟩
  | wait_time now =>
    rw [step, get_wait_time_bucket]
    exact ⟨map_refill_inv s.bucket now hinv hr, map_refill_rates s.bucket now hr⟩
  | stats now =>
    rw [step, get_stats_bucket]
    exact ⟨map_refill_inv s.bucket now hinv hr, map_refill_rates s.bucket now hr⟩
  | rel => exact ⟨hinv, hr⟩

theorem run_bucket_inv (ops : List Op) :
    ∀ s : RateLimiter, bucket_inv s.bucket → bucket_rates s.bucket →
      0 ≤ s.tokens_per_request →
      bucket_inv (run s ops).bucket ∧ bucket_rates (run s ops).bucket ∧
        0 ≤ (run s ops).tokens_per_request := by
  induction ops with
  | nil => exact fun s h1 h2 h3 => ⟨h1, h2, h3⟩
  | cons op rest ih =>
    intro s h1 h2 h3
    have hstep := step_bucket_inv s op h1 h2 h3
    have htpr : 0 ≤ (step s op).tokens_per_request := by
      rw [(step_fields s op).2.2]; exact h3
    exact ih (step s op) hstep.1 hstep.2 htpr

theorem tok_inv_eq_true_iff (s : RateLimiter) :
    tok_inv s = true ↔ bucket_inv s.bucket := by
  cases hb : s.bucket with
  | none => simp [tok_inv, bucket_inv, hb]
  | some b => simp [tok_inv, bucket_inv, hb]

/-- C3 as stated is false at construction: the constructor sets the level
to max_tokens without clamping it to max_token_capacity, so a capacity
smaller than max_tokens yields tokens = 10 above capacity = 5 immediately
after construction. -/
theorem C3_counterexample :
    tok_inv (init 60 60 (some 10) 1 1 (some 5) 0) = false := by
  decide

/-- C3 amended: provided the effective capacity is at least max_tokens
(automatic when max_token_capacity is None or 0, the defaulting cases) and
the per-request cost, refill rate and initial level are non-negative, every
reachable state satisfies 0 <= tokens <= maxCapacity: after construction
and after any sequence of probes, wait-time computations, stats calls and
releases. -/
theorem C3_token_level_bounds (maxR : ℕ) (per m tpr trr t0 : ℚ) (cap : Option ℚ)
    (hm : 0 ≤ m) (htpr : 0 ≤ tpr) (htrr : 0 ≤ trr)
    (hcap : m ≤ pyOrElse cap m) (ops : List Op) :
    tok_inv (run (init maxR per (some m) tpr trr cap t0) ops) = true := by
  rw [tok_inv_eq_true_iff]
  refine (run_bucket_inv ops (init maxR per (some m) tpr trr cap t0) ?_ ?_ htpr).1
  · intro b hb
    simp only [init, Option.map, Option.mem_def, Option.some_inj] at hb
    subst hb
    exact ⟨hm, hcap⟩
  · intro b hb
    simp only [init, Option.map, Option.mem_def, Option.some_inj] at hb
    subst hb
    exact htrr

/-- C3 witness: the amended bound evaluated on a concrete defaulted-capacity
limiter after a probe that consumes a token. -/
theorem C3_token_level_bounds_witness :
    ((0:ℚ) ≤ 10 ∧ (0:ℚ) ≤ 1 ∧ (10:ℚ) ≤ pyOrElse none 10) ∧
    tok_inv (run (init 2 60 (some 10) 1 1 none 0) [Op.probe 0, Op.wait_time 1, Op.stats 2])
      = true :=
  ⟨⟨by decide, by decide, by decide⟩,
    C3_token_level_bounds 2 60 10 1 1 0 none (by decide) (by decide) (by decide) (by decide)
      [Op.probe 0, Op.wait_time 1, Op.stats 2]⟩

theorem countGe_le_length (a : ℚ) (l : List ℚ) : countGe a l ≤ l.length :=
  List.countP_le_length _

theorem countGe_append_singleton (a t : ℚ) (l : List ℚ) :
    countGe a (l ++ [t]) = countGe a l + if a ≤ t then 1 else 0 := by
  simp [countGe, List.countP_append, List.countP_cons]

theorem countGe_cleanup (a per now : ℚ) (hnow : now ≤ a + per) (l : List ℚ) :
    countGe a (cleanup_old_requests per l now) = countGe a l := by
  induction l with
  | nil => rfl
  | cons t rest ih =>
    simp only [cleanup_old_requests]
    split_ifs with h
    · have ht : ¬ a ≤ t := by
        intro hat
        have : per < now - t := h
        linarith
      rw [ih]
      simp [countGe, List.countP_cons, ht]
    · rfl

theorem get_wait_time_requests (s : RateLimiter) (now : ℚ) :
    (s.get_wait_time now).2.requests
      = cleanup_old_requests s.per_seconds s.requests now := by
  cases hb : s.bucket <;> simp [get_wait_time, hb]

theorem get_stats_requests (s : RateLimiter) (now : ℚ) :
    (s.get_stats now).2.requests
      = cleanup_old_requests s.per_seconds s.requests now := by
  cases hb : s.bucket <;> simp [get_stats, hb]

theorem step_len_inv (s : RateLimiter) (op : Op) (h : len_inv s) :
    len_inv (step s op) := by
  have hf := step_fields s op
  unfold len_inv at h ⊢
  rw [hf.2.1]
  cases op with
  | probe now =>
    cases hb : (s.is_request_allowed now).1 with
    | true =>
      have hreq := probe_requests_true s now hb
      have hlt := window_lt_of_probe_true s now hb
      rw [step, hreq, List.length_append]
      simpa using hlt
    | false =>
      have hreq := probe_requests_false s now hb
      rw [step, hreq]
      exact le_trans (cleanup_length_le s.per_seconds now s.requests) h
  | wait_time now =>
    rw [step, get_wait_time_requests]
    exact le_trans (cleanup_length_le s.per_seconds now s.requests) h
  | stats now =>
    rw [step, get_stats_requests]
    exact le_trans (cleanup_length_le s.per_seconds now s.requests) h
  | rel =>
    rw [step, release, List.length_dropLast]
    exact le_trans (Nat.sub_le _ _) h

theorem run_fields (ops : List Op) :
    ∀ s : RateLimiter,
      (run s ops).per_seconds = s.per_seconds ∧
      (run s ops).max_requests = s.max_requests := by
  induction ops with
  | nil => exact fun s => ⟨rfl, rfl⟩
  | cons op rest ih =>
    intro s
    have hf := step_fields s op
    have hr := ih (step s op)
    exact ⟨hr.1.trans hf.1, hr.2.trans hf.2.1⟩

theorem run_len_inv (ops : List Op) :
    ∀ s : RateLimiter, len_inv s → len_inv (run s ops) := by
  induction ops with
  | nil => exact fun s h => h
  | cons op rest ih => exact fun s h => ih (step s op) (step_len_inv s op h)

theorem probe_trace_count_le (a : ℚ) :
    ∀ (ts : List ℚ) (s : RateLimiter),
      (∀ t ∈ ts, a ≤ t ∧ t ≤ a + s.per_seconds) →
      s.requests.length ≤ s.max_requests →
      countGe a s.requests + (probe_trace s ts).1 ≤ s.max_requests := by
  intro ts
  induction ts with
  | nil =>
    intro s _ hlen
    simpa [probe_trace] using le_trans (countGe_le_length a s.requests) hlen
  | cons t ts ih =>
    intro s hts hlen
    have ht := hts t (List.mem_cons_self t ts)
    have hclean : countGe a (cleanup_old_requests s.per_seconds s.requests t)
        = countGe a s.requests :=
      countGe_cleanup a s.per_seconds t ht.2 s.requests
    have hfields := probe_fields s t
    have hts1 : ∀ u ∈ ts, a ≤ u ∧ u ≤ a + (s.is_request_allowed t).2.per_seconds := by
      rw [hfields.1]
      exact fun u hu => hts u (List.mem_cons_of_mem t hu)
    cases hb : (s.is_request_allowed t).1 with
    | true =>
      have hreq := probe_requests_true s t hb
      have hlt := window_lt_of_probe_true s t hb
      have hlen1 : (s.is_request_allowed t).2.requests.length
          ≤ (s.is_request_allowed t).2.max_requests := by
        rw [hfields.2.1, hreq, List.length_append]
        simpa using hlt
      have hcount1 : countGe a (s.is_request_allowed t).2.requests
          = countGe a s.requests + 1 := by
        rw [hreq, countGe_append_singleton, hclean, if_pos ht.1]
      have hrec := ih (s.is_request_allowed t).2 hts1 hlen1
      rw [hfields.2.1, hcount1] at hrec
      have htrace : (probe_trace s (t :: ts)).1
          = 1 + (probe_trace (s.is_request_allowed t).2 ts).1 := by
        simp [probe_trace, hb]
      rw [htrace]
      omega
    | false =>
      have hreq := probe_requests_false s t hb
      have hlen1 : (s.is_request_allowed t).2.requests.length
          ≤ (s.is_request_allowed t).2.max_requests := by
        rw [hfields.2.1, hreq]
        exact le_trans (cleanup_length_le s.per_seconds t s.requests) hlen
      have hcount1 : countGe a (s.is_request_allowed t).2.requests
          = countGe a s.requests := by
        rw [hreq, hclean]
      have hrec := ih (s.is_request_allowed t).2 hts1 hlen1
      rw [hfields.2.1, hcount1] at hrec
      have htrace : (probe_trace s (t :: ts)).1
          = 0 + (probe_trace (s.is_request_allowed t).2 ts).1 := by
        simp [probe_trace, hb]
      rw [htrace]
      omega

/-- C1: starting from any reachable state (the initial state followed by an
arbitrary sequence of operations), at most maxRequests non-blocking probes
whose timestamps all lie within one trailing window of length windowSeconds
return True; moreover after every operation the admissions sequence holds
at most maxRequests entries, and a probe taken while the pruned window
already holds maxRequests entries returns False. -/
theorem C1_window_admission_bound (maxR : ℕ) (per tpr trr t0 a : ℚ)
    (mt cap : Option ℚ) (ops : List Op) (ts : List ℚ)
    (hts : ∀ t ∈ ts, a ≤ t ∧ t ≤ a + per) :
    (probe_trace (run (init maxR per mt tpr trr cap t0) ops) ts).1 ≤ maxR ∧
    (run (init maxR per mt tpr trr cap t0) ops).requests.length ≤ maxR ∧
    (∀ now, maxR ≤ (cleanup_old_requests per
        (run (init maxR per mt tpr trr cap t0) ops).requests now).length →
      ((run (init maxR per mt tpr trr cap t0) ops).is_request_allowed now).1 = false) := by
  have hfields := run_fields ops (init maxR per mt tpr trr cap t0)
  have hper : (run (init maxR per mt tpr trr cap t0) ops).per_seconds = per := hfields.1
  have hmax : (run (init maxR per mt tpr trr cap t0) ops).max_requests = maxR := hfields.2
  have hinv : len_inv (run (init maxR per mt tpr trr cap t0) ops) :=
    run_len_inv ops _ (by simp [len_inv, init])
  refine ⟨?_, ?_, ?_⟩
  · have hts' : ∀ t ∈ ts, a ≤ t ∧ t ≤ a
        + (run (init maxR per mt tpr trr cap t0) ops).per_seconds := by
      rw [hper]
      exact hts
    have h := probe_trace_count_le a ts _ hts' hinv
    rw [hmax] at h
    omega
  · rw [len_inv, hmax] at hinv
    exact hinv
  · intro now hlen
    apply probe_false_of_full
    rw [hper, hmax]
    exact hlen

/-- C1 witness: the spec's own scenario, maxRequests = 2 in a 1-second
window with three probes at time 0: at most 2 succeed. -/
theorem C1_window_admission_bound_witness :
    (∀ t ∈ [(0:ℚ), 0, 0], (0:ℚ) ≤ t ∧ t ≤ 0 + 1) ∧
    (probe_trace (run (init 2 1 none 1 1 none 0) []) [0, 0, 0]).1 ≤ 2 :=
  ⟨by decide,
    (C1_window_admission_bound 2 1 1 1 0 0 none none [] [0, 0, 0] (by decide)).1⟩
